import Mathlib

/-!
Verification of the GitHub issue/PR harvester (issue_finder.py).

This file gives a shallow embedding of the pure logic of the harvester:
the tiered issue-number heuristics of find_issue_number_in_body, the
documentation-only classifier looks_like_docs_only, the PR size filter of
process_repo, the cache-key construction of gh_get, the CSV sink
(ensure_csv_header / append_csv_rows), the retry discipline of
_gh_get_direct / backoff, and the counter bookkeeping of
collect_and_stream.  Strings are modelled as lists of characters where
scanning is needed; the character classes of the regular expressions are
modelled on their ASCII fragment, which covers every input considered
here.  Theorems about each embedded operation follow the definitions.
-/

namespace IssueFinder

/-! ### Character classes (ASCII fragment of Python regex classes) -/

/-- ASCII fragment of the regex class backslash-w: letters, digits, underscore. -/
def isWordChar (c : Char) : Bool := c.isAlphanum || c == '_'

/-- ASCII fragment of the regex class backslash-s. -/
def isSpaceChar (c : Char) : Bool :=
  c == ' ' || c == '\t' || c == '\n' || c == '\r' || c == '\x0b' || c == '\x0c'

/-- The bracket class of the linker regexes: whitespace, word chars, dot, hyphen. -/
def isLinkClassChar (c : Char) : Bool :=
  isSpaceChar c || isWordChar c || c == '.' || c == '-'

/-- Numeric value of an ASCII digit character. -/
def digitVal (c : Char) : Nat := c.toNat - 48

/-- Value of a digit run, as Python int() of the captured group. -/
def digitsToNat (ds : List Char) : Nat :=
  ds.foldl (fun acc c => acc * 10 + digitVal c) 0

/-- Lowercasing a character list, as Python str.lower on ASCII text. -/
def lowerChars (s : List Char) : List Char := s.map Char.toLower

/-! ### find_issue_number_in_body (issue_finder.py lines 293-315)

The three tiers are re.search calls.  For the tier-1 and tier-2 patterns
(keyword, then the greedy class run, then a hash and digits) the greedy
class run is forced: the hash sign is not a class character, so the only
candidate split is the maximal class run; the match at a position
succeeds exactly when the character after that run is a hash sign
followed by at least one digit.  re.search takes the leftmost matching
position, trying the keyword alternatives in pattern order there. -/

/-- Case-insensitive keyword match at the head of the text; returns the rest. -/
def dropKeyword : List Char → List Char → Option (List Char)
  | [], cs => some cs
  | _ :: _, [] => none
  | k :: ks, c :: cs =>
    if Char.toLower c == Char.toLower k then dropKeyword ks cs else none

/-- After a matched keyword: the greedy class run, then a hash sign and a
nonempty digit run, whose value is returned. -/
def matchTail (cs : List Char) : Option Nat :=
  match cs.dropWhile isLinkClassChar with
  | '#' :: rest =>
    let ds := rest.takeWhile Char.isDigit
    if ds.isEmpty then none else some (digitsToNat ds)
  | _ => none

/-- Try each keyword alternative, in pattern order, at the current position. -/
def tryKeywordsAt (kws : List (List Char)) (cs : List Char) : Option Nat :=
  match kws with
  | [] => none
  | k :: ks =>
    match dropKeyword k cs with
    | some rest =>
      match matchTail rest with
      | some n => some n
      | none => tryKeywordsAt ks cs
    | none => tryKeywordsAt ks cs

/-- Leftmost match of keyword-then-class-run-then-hash-digits, as re.search
with the IGNORECASE flag. -/
def searchKeyword (kws : List (List Char)) : List Char → Option Nat
  | [] => none
  | c :: rest =>
    match tryKeywordsAt kws (c :: rest) with
    | some n => some n
    | none => searchKeyword kws rest

/-- The tier-1 closing-keyword alternatives, in pattern order. -/
def closingKeywords : List (List Char) :=
  [String.data "closes", String.data "fixes", String.data "resolves", String.data "resolve"]

/-- The tier-2 keyword. -/
def issueKeywords : List (List Char) := [String.data "issue"]

/-- Tier 3: re.search for a hash sign and digits; the leftmost such match is
taken, and its number is returned only when the digit run is shorter
than 7 (issue_finder.py lines 309-313). -/
def searchBareRef : List Char → Option Nat
  | [] => none
  | c :: rest =>
    if c == '#' then
      let ds := rest.takeWhile Char.isDigit
      if ds.isEmpty then searchBareRef rest
      else if ds.length < 7 then some (digitsToNat ds) else none
    else searchBareRef rest

/-- Model of find_issue_number_in_body: the body may be missing (None) or empty, in
which case no number is found; otherwise the three tiers run in order. -/
def find_issue_number_in_body (body : Option String) : Option Nat :=
  match body with
  | none => none
  | some b =>
    if b.data.isEmpty then none
    else
      match searchKeyword closingKeywords b.data with
      | some n => some n
      | none =>
        match searchKeyword issueKeywords b.data with
        | some n => some n
        | none => searchBareRef b.data

/-! ### looks_like_docs_only (issue_finder.py lines 260-271) -/

/-- The doc-like directory prefixes DOC_LIKE_DIRS (issue_finder.py line 56). -/
def DOC_LIKE_DIRS : List String := ["docs/", "doc/", ".github/", "examples/", "example/"]

/-- The prose file extensions DOC_LIKE_EXTS (issue_finder.py line 57). -/
def DOC_LIKE_EXTS : List String := [".md", ".rst", ".txt", ".adoc"]

/-- The known CI and lint filenames CI_FILES (issue_finder.py line 58). -/
def CI_FILES : List String :=
  [".pre-commit-config.yaml", "pyproject.toml", ".flake8", ".pylintrc",
   ".coveragerc", ".gitignore", ".editorconfig"]

/-- Does the pattern occur at the head of the text. -/
def charsBeginWith : List Char → List Char → Bool
  | [], _ => true
  | _ :: _, [] => false
  | p :: ps, c :: cs => p == c && charsBeginWith ps cs

/-- Does the pattern occur at the end of the text. -/
def charsEndWith (p s : List Char) : Bool := charsBeginWith p.reverse s.reverse

/-- Split on the path separator, accumulating the current component. -/
def splitSlashAux : List Char → List Char → List (List Char)
  | [], acc => [acc.reverse]
  | c :: cs, acc =>
    if c == '/' then acc.reverse :: splitSlashAux cs [] else splitSlashAux cs (c :: acc)

/-- Final path component, as pathlib PurePath(fn).name for the relative
paths produced by the forge API: empty and single-dot components are
dropped and the last remaining component is taken. -/
def pathName (s : List Char) : List Char :=
  ((splitSlashAux s []).filter (fun comp => !comp.isEmpty && comp ≠ ['.'])).getLastD []

/-- Model of looks_like_docs_only: count the changed files whose lowercased path is
excluded by none of the directory, extension and CI-filename rules; the
change set is docs-only exactly when that count is zero. -/
def looks_like_docs_only (files : List String) : Bool :=
  (files.foldl (fun code_like f =>
    let fn := lowerChars f.data
    if DOC_LIKE_DIRS.any (fun d => charsBeginWith d.data fn) then code_like
    else if DOC_LIKE_EXTS.any (fun e => charsEndWith e.data fn) then code_like
    else if CI_FILES.any (fun cf => pathName fn == cf.data) then code_like
    else code_like + 1) 0) == 0

/-! ### PR size filter (process_repo, issue_finder.py lines 381-393)

The two reject tests of process_repo on the changed-file count and the
changed-line total, in order: below the minima, then above the maxima. -/

/-- The size-filter rejection test of process_repo: true when the PR is
skipped because of its changed-file count or changed-line total. -/
def size_filter_rejects (min_files max_files min_lines max_lines
    changed_files additions deletions : Nat) : Bool :=
  if changed_files < min_files || additions + deletions < min_lines then true
  else if changed_files > max_files || additions + deletions > max_lines then true
  else false

/-! ### Cache key (gh_get, issue_finder.py lines 101-106)

The key is sha256 over the URL bytes followed, when the parameter dict is
nonempty, by json.dumps of the parameters with sort_keys=True.  The
parameter dict is modelled as an association list with pairwise distinct
keys (insertion order being the list order), values rendered as strings;
sha256 is modelled as an abstract deterministic hash of the accumulated
input string. -/

/-- One key-value pair as serialized by json.dumps. -/
def renderParam (p : String × String) : String :=
  "\"" ++ p.1 ++ "\": \"" ++ p.2 ++ "\""

/-- The canonical parameter order of json.dumps with sort_keys=True. -/
def sortParams (l : List (String × String)) : List (String × String) :=
  List.insertionSort (fun p q => p.1 ≤ q.1) l

/-- Serialization of the parameter dict by json.dumps with sorted keys. -/
def dumpsParams (l : List (String × String)) : String :=
  "\x7b" ++ String.intercalate ", " (l.map renderParam) ++ "\x7d"

/-- The byte stream fed to the hash: the URL, then the serialized
parameters when the dict is nonempty (the hasher.update calls). -/
def cacheKeyInput (url : String) (params : List (String × String)) : String :=
  if params.isEmpty then url else url ++ dumpsParams (sortParams params)

/-- The cache key: a deterministic hash of the accumulated input. -/
def cache_key (url : String) (params : List (String × String)) : UInt64 :=
  (cacheKeyInput url params).hash

/-! ### CSV sink (issue_finder.py lines 275-289)

The output file is modelled as its list of rows, a row being its list of
field values; a missing file is None. -/

/-- The output header FIELDNAMES (issue_finder.py lines 60-65). -/
def FIELDNAMES : List String :=
  ["repo", "stars", "repo_size_mb",
   "issue_number", "issue_title", "issue_url",
   "pr_number", "pr_url", "merged_at",
   "additions", "deletions", "changed_files", "base_sha", "clone_command"]

/-- Model of ensure_csv_header: when the file does not exist, create it holding just
the header row; otherwise leave it untouched.  Returns the file content
after the call. -/
def ensure_csv_header (file : Option (List (List String))) (fieldnames : List String) :
    List (List String) :=
  match file with
  | none => [fieldnames]
  | some c => c

/-- Model of append_csv_rows: when start is at least the buffer length nothing is
written and start is returned; otherwise the rows from start onward are
appended and the buffer length is returned.  Returns the new file content
and the returned index. -/
def append_csv_rows (file : List (List String)) (rows : List (List String)) (start : Nat) :
    List (List String) × Nat :=
  if rows.length ≤ start then (file, start)
  else (file ++ rows.drop start, rows.length)

/-! ### HTTP retry discipline (_gh_get_direct and backoff,
issue_finder.py lines 76-92 and 125-135)

_gh_get_direct loops: a 403 response goes through backoff and is retried
unconditionally; any other status of at least 400 returns None; otherwise
the response is returned.  The run of the loop is modelled over the list
of successive responses the network produces: the outer Option is None
when the loop is still retrying after the listed responses (the retry
loop is unbounded), otherwise it holds the result, None standing for the
Python None return.  backoff sleeps only when the remaining-quota header
equals the string 0 and a nonempty reset header is present; the sleep
duration is real time and is not modelled. -/

/-- One API response: HTTP status and the two rate-limit headers consumed
by backoff (a missing header is None). -/
structure HttpResponse where
  status : Nat
  rateLimitRemaining : Option String
  rateLimitReset : Option String
deriving DecidableEq

/-- Does backoff sleep for this response: status 403, remaining quota
header equal to the string 0, and a truthy (nonempty) reset header. -/
def backoff_sleeps (r : HttpResponse) : Bool :=
  if r.status ≠ 403 then false
  else
    match r.rateLimitRemaining, r.rateLimitReset with
    | some rem, some reset => rem == "0" && !reset.isEmpty
    | _, _ => false

/-- The _gh_get_direct loop over the successive responses. -/
def ghGetDirectRun : List HttpResponse → Option (Option HttpResponse)
  | [] => none
  | r :: rest =>
    if r.status = 403 then ghGetDirectRun rest
    else if 400 ≤ r.status then some none
    else some (some r)

/-! ### Orchestrator bookkeeping (collect_and_stream,
issue_finder.py lines 468-548)

The mutable run state: the row buffer, the output file, last_saved and
the two counters.  The orchestrator is the sole writer; its state changes
are the completion of one repository task (buffer extension, counter
updates, threshold-triggered autosave) and a forced flush (the rate-limit
callback, and the final flush on shutdown, which run the same
append_csv_rows call). -/

/-- The run-scoped harvest state of collect_and_stream. -/
structure HarvestState where
  rows : List (List String)
  file : List (List String)
  last_saved : Nat
  issues_checked : Nat
  prs_checked : Nat

/-- The state-changing events of one run. -/
inductive HarvestEvent where
  | taskCompleted (new_rows : List (List String))
  | flushNow

/-- Initial state: empty buffer, zero counters, the file as left by
ensure_csv_header. -/
def initHarvestState (file0 : List (List String)) : HarvestState :=
  { rows := [], file := file0, last_saved := 0, issues_checked := 0, prs_checked := 0 }

/-- One state change of collect_and_stream: a completed task extends the
buffer, adds the returned row count to both counters and autosaves when
the unflushed rows reach the threshold; a forced flush appends from
last_saved and stores the returned index. -/
def harvestStep (autosave_every : Nat) (s : HarvestState) (ev : HarvestEvent) : HarvestState :=
  match ev with
  | .taskCompleted new_rows =>
    let rows := s.rows ++ new_rows
    let issues := s.issues_checked + new_rows.length
    let prs := s.prs_checked + new_rows.length
    if autosave_every ≤ rows.length - s.last_saved then
      let r := append_csv_rows s.file rows s.last_saved
      { rows := rows, file := r.1, last_saved := r.2,
        issues_checked := issues, prs_checked := prs }
    else
      { rows := rows, file := s.file, last_saved := s.last_saved,
        issues_checked := issues, prs_checked := prs }
  | .flushNow =>
    let r := append_csv_rows s.file s.rows s.last_saved
    { rows := s.rows, file := r.1, last_saved := r.2,
      issues_checked := s.issues_checked, prs_checked := s.prs_checked }

/-- A whole run: the events in order, from the initial state. -/
def harvestRun (autosave_every : Nat) (file0 : List (List String))
    (evs : List HarvestEvent) : HarvestState :=
  evs.foldl (harvestStep autosave_every) (initHarvestState file0)

/-- Key order on parameter pairs is total. -/
instance : IsTotal (String × String) (fun p q => p.1 ≤ q.1) :=
  ⟨fun a b => le_total a.1 b.1⟩

/-- Key order on parameter pairs is transitive. -/
instance : IsTrans (String × String) (fun p q => p.1 ≤ q.1) :=
  ⟨fun _ _ _ hab hbc => le_trans hab hbc⟩

/-! ### Helper lemmas -/

/-- A fold over digit characters is bounded by the digit count. -/
theorem digit_foldl_lt (ds : List Char) : ∀ acc : Nat,
    (∀ c ∈ ds, c.isDigit = true) →
    List.foldl (fun a c => a * 10 + digitVal c) acc ds < (acc + 1) * 10 ^ ds.length := by
  induction ds with
  | nil => intro acc _; simp [Nat.lt_succ_self acc]
  | cons c cs ih =>
    intro acc h
    have hc : c.isDigit = true := h c (List.mem_cons_self c cs)
    have hd : digitVal c ≤ 9 := by
      simp only [Char.isDigit, Bool.and_eq_true, decide_eq_true_eq] at hc
      have h2 : c.val ≤ 57 := hc.2
      have h3 : c.val.toNat ≤ 57 := h2
      unfold digitVal Char.toNat
      omega
    have hrec := ih (acc * 10 + digitVal c)
      (fun x hx => h x (List.mem_cons_of_mem c hx))
    calc List.foldl (fun a c => a * 10 + digitVal c) acc (c :: cs)
        = List.foldl (fun a c => a * 10 + digitVal c) (acc * 10 + digitVal c) cs := rfl
      _ < (acc * 10 + digitVal c + 1) * 10 ^ cs.length := hrec
      _ ≤ ((acc + 1) * 10) * 10 ^ cs.length := Nat.mul_le_mul_right _ (by omega)
      _ = (acc + 1) * 10 ^ (c :: cs).length := by
          simp only [List.length_cons, pow_succ]; ring

/-- The value of a nonempty digit run of fewer than 7 digits is below one
million. -/
theorem digitsToNat_lt (ds : List Char) (hds : ∀ c ∈ ds, c.isDigit = true)
    (hlen : ds.length < 7) : digitsToNat ds < 1000000 := by
  have h1 := digit_foldl_lt ds 0 hds
  have h2 : 10 ^ ds.length ≤ 10 ^ 6 := Nat.pow_le_pow_right (by norm_num) (by omega)
  unfold digitsToNat
  calc List.foldl (fun a c => a * 10 + digitVal c) 0 ds
      < (0 + 1) * 10 ^ ds.length := h1
    _ ≤ 1000000 := by simpa using h2

/-- Two lists of key-value pairs that are permutations of each other, are
both sorted by key, and have pairwise distinct keys, are equal. -/
theorem sortedKeys_perm_eq : ∀ l₁ l₂ : List (String × String),
    List.Perm l₁ l₂ → List.Sorted (fun p q => p.1 ≤ q.1) l₁ →
    List.Sorted (fun p q => p.1 ≤ q.1) l₂ → (l₁.map Prod.fst).Nodup → l₁ = l₂ := by
  intro l₁
  induction l₁ with
  | nil =>
    intro l₂ hp _ _ _
    exact (List.Perm.nil_eq hp)
  | cons a t₁ ih =>
    intro l₂ hp hs₁ hs₂ hn
    cases l₂ with
    | nil => exact absurd hp.eq_nil (by simp)
    | cons b t₂ =>
      have hab : a = b := by
        rcases List.mem_cons.mp (hp.mem_iff.mp (List.mem_cons_self a t₁)) with haeq | hat₂
        · exact haeq
        · rcases List.mem_cons.mp (hp.mem_iff.mpr (List.mem_cons_self b t₂)) with hbeq | hbt₁
          · exact hbeq.symm
          · have h1 : a.1 ≤ b.1 := List.rel_of_sorted_cons hs₁ b hbt₁
            have h2 : b.1 ≤ a.1 := List.rel_of_sorted_cons hs₂ a hat₂
            have hkey : b.1 = a.1 := le_antisymm h2 h1
            have hmem : a.1 ∈ t₁.map Prod.fst := by
              rw [← hkey]
              exact List.mem_map_of_mem Prod.fst hbt₁
            simp only [List.map_cons, List.nodup_cons] at hn
            exact absurd hmem hn.1
      subst hab
      have ht : List.Perm t₁ t₂ := hp.cons_inv
      have hnt : (t₁.map Prod.fst).Nodup := by
        simp only [List.map_cons, List.nodup_cons] at hn
        exact hn.2
      rw [ih t₂ ht hs₁.of_cons hs₂.of_cons hnt]

/-- The index returned by append_csv_rows is the buffer length whenever the start index is
within the buffer. -/
theorem append_csv_rows_idx (file rows : List (List String)) (start : Nat)
    (h : start ≤ rows.length) : (append_csv_rows file rows start).2 = rows.length := by
  rcases lt_or_ge start rows.length with hlt | hge
  · simp [append_csv_rows, Nat.not_le.mpr hlt]
  · have heq : start = rows.length := le_antisymm h hge
    simp [append_csv_rows, heq]

/-- One orchestrator state change preserves the counter invariants. -/
theorem harvestStep_preserves (ae : Nat) (s : HarvestState) (ev : HarvestEvent)
    (h1 : s.issues_checked = s.rows.length) (h2 : s.prs_checked = s.rows.length)
    (h3 : s.last_saved ≤ s.rows.length) :
    (harvestStep ae s ev).issues_checked = (harvestStep ae s ev).rows.length
    ∧ (harvestStep ae s ev).prs_checked = (harvestStep ae s ev).rows.length
    ∧ (harvestStep ae s ev).last_saved ≤ (harvestStep ae s ev).rows.length := by
  cases ev with
  | taskCompleted new_rows =>
    have hlen : s.last_saved ≤ (s.rows ++ new_rows).length := by
      simp only [List.length_append]
      omega
    by_cases hc : ae ≤ (s.rows ++ new_rows).length - s.last_saved
    · simp only [harvestStep, hc, if_true]
      refine ⟨by simp [h1], by simp [h2], ?_⟩
      rw [append_csv_rows_idx _ _ _ hlen]
    · simp only [harvestStep, hc, if_false]
      exact ⟨by simp [h1], by simp [h2], hlen⟩
  | flushNow =>
    refine ⟨h1, h2, ?_⟩
    simp only [harvestStep]
    rw [append_csv_rows_idx _ _ _ h3]

/-- The counter invariants hold along any fold of orchestrator events. -/
theorem harvestFold_inv (ae : Nat) : ∀ (evs : List HarvestEvent) (s : HarvestState),
    s.issues_checked = s.rows.length → s.prs_checked = s.rows.length →
    s.last_saved ≤ s.rows.length →
    (evs.foldl (harvestStep ae) s).issues_checked
        = (evs.foldl (harvestStep ae) s).rows.length
    ∧ (evs.foldl (harvestStep ae) s).prs_checked
        = (evs.foldl (harvestStep ae) s).rows.length
    ∧ (evs.foldl (harvestStep ae) s).last_saved
        ≤ (evs.foldl (harvestStep ae) s).rows.length := by
  intro evs
  induction evs with
  | nil => intro s ha hb hc; exact ⟨ha, hb, hc⟩
  | cons ev rest ih =>
    intro s ha hb hc
    have hstep := harvestStep_preserves ae s ev ha hb hc
    simpa [List.foldl_cons] using ih (harvestStep ae s ev) hstep.1 hstep.2.1 hstep.2.2

/-! ### Claim theorems -/

/-- Claim C1, counterexample: contrary to the claim, the file set
docs/guide.md, examples/demo.py is NOT classified code-bearing:
looks_like_docs_only does not return false on it. -/
theorem c1_docs_only_example_counterexample :
    ¬ looks_like_docs_only ["docs/guide.md", "examples/demo.py"] = false := by decide

/-- Claim C1 (amended): the file set docs/guide.md, examples/demo.py is
classified doc-only (looks_like_docs_only returns true), because
examples/demo.py IS excluded by the directory-prefix rule: the prefix
examples/ is one of the doc-like directories. -/
theorem c1_docs_only_example_amended :
    looks_like_docs_only ["docs/guide.md", "examples/demo.py"] = true
    ∧ DOC_LIKE_DIRS.any
        (fun d => charsBeginWith d.data (lowerChars (String.data "examples/demo.py"))) = true := by
  decide

/-- Claim C2, counterexample: the body whose text is hash-1234567 then
hash-42 has no tier-1 or tier-2 match and contains a bare reference of
fewer than 7 digits (42, which tier 3 accepts when it is the only
reference), yet find_issue_number_in_body returns no number: only the
leftmost bare reference is examined. -/
theorem c2_bare_ref_counterexample :
    find_issue_number_in_body (some "#1234567 #42") = none
    ∧ find_issue_number_in_body (some "#42") = some 42 := by decide

/-- Claim C2 (amended): tier 3 examines only the leftmost bare reference
of the body: any number it produces comes from a digit run shorter than 7
and is therefore below one million; a body whose leftmost bare reference
is short resolves to it, and a 7-digit reference alone never matches. -/
theorem c2_bare_ref_amended :
    (∀ (cs : List Char) (n : Nat), searchBareRef cs = some n → n < 1000000)
    ∧ find_issue_number_in_body (some "#42 #1234567") = some 42
    ∧ find_issue_number_in_body (some "#1234567") = none := by
  refine ⟨?_, by decide, by decide⟩
  intro cs n h
  induction cs with
  | nil => simp [searchBareRef] at h
  | cons c rest ih =>
    rw [searchBareRef] at h
    by_cases hc : c == '#'
    · rw [if_pos hc] at h
      by_cases he : (rest.takeWhile Char.isDigit).isEmpty
      · rw [if_pos he] at h
        exact ih h
      · rw [if_neg he] at h
        by_cases hl : (rest.takeWhile Char.isDigit).length < 7
        · rw [if_pos hl] at h
          have hn : digitsToNat (rest.takeWhile Char.isDigit) = n := Option.some.inj h
          have hb := digitsToNat_lt (rest.takeWhile Char.isDigit)
            (fun x hx => List.mem_takeWhile_imp hx) hl
          omega
        · rw [if_neg hl] at h
          exact absurd h (by simp)
    · rw [if_neg hc] at h
      exact ih h

/-- Witness for the amended claim C2, at the body hash-42. -/
theorem c2_bare_ref_amended_witness :
    searchBareRef (String.data "#42") = some 42 ∧ 42 < 1000000 :=
  ⟨by decide, c2_bare_ref_amended.1 (String.data "#42") 42 (by decide)⟩

/-- Claim C3, counterexample: a 403 response carrying no rate-limit
headers has status at least 400 and is not a rate-limit exhaustion
(backoff does not sleep on it), yet the fetch loop does not return
Absent: it retries and hands back the next (200) response. -/
theorem c3_plain_403_counterexample :
    (400 ≤ (HttpResponse.mk 403 none none).status
      ∧ backoff_sleeps (HttpResponse.mk 403 none none) = false)
    ∧ ghGetDirectRun [HttpResponse.mk 403 none none, HttpResponse.mk 200 none none]
        = some (some (HttpResponse.mk 200 none none)) := by decide

/-- Claim C3 (amended): a response with status at least 400 other than 403
makes the fetch return Absent at once, without consuming any further
response; every 403 response, rate-limit exhaustion or not, is retried. -/
theorem c3_fetch_absent_amended (r : HttpResponse) (rest : List HttpResponse) :
    (400 ≤ r.status → r.status ≠ 403 → ghGetDirectRun (r :: rest) = some none)
    ∧ (r.status = 403 → ghGetDirectRun (r :: rest) = ghGetDirectRun rest) := by
  constructor
  · intro h400 h403
    simp [ghGetDirectRun, h403, h400]
  · intro h403
    simp [ghGetDirectRun, h403]

/-- Witness for the amended claim C3: a 404 response returns Absent, and a
rate-limited 403 response is retried. -/
theorem c3_fetch_absent_amended_witness :
    ghGetDirectRun [HttpResponse.mk 404 none none] = some none
    ∧ ghGetDirectRun [HttpResponse.mk 403 (some "0") (some "1700000000")]
        = ghGetDirectRun [] :=
  ⟨(c3_fetch_absent_amended (HttpResponse.mk 404 none none) []).1 (by decide) (by decide),
   (c3_fetch_absent_amended (HttpResponse.mk 403 (some "0") (some "1700000000")) []).2 rfl⟩

/-- Claim C4: the linker tiers are tried in order with the first match
winning: a closing keyword followed by a reference beats any other bare
reference, and with no closing keyword the word issue followed by a
reference decides. -/
theorem c4_linker_tier_ordering :
    find_issue_number_in_body (some "Fixes #42, see also #9999999") = some 42
    ∧ find_issue_number_in_body (some "Related to issue #17, no closing keyword") = some 17 := by
  decide

/-- Claim C5: the size filter of process_repo rejects a PR exactly when
the changed-file count or the changed-line total falls strictly outside
the configured inclusive bounds; with min_files 5, exactly 5 changed
files pass and 4 are rejected. -/
theorem c5_size_filter_inclusive :
    (∀ min_files max_files min_lines max_lines changed_files additions deletions : Nat,
      size_filter_rejects min_files max_files min_lines max_lines
          changed_files additions deletions = true ↔
        ¬ (min_files ≤ changed_files ∧ changed_files ≤ max_files
            ∧ min_lines ≤ additions + deletions ∧ additions + deletions ≤ max_lines))
    ∧ size_filter_rejects 5 999999 80 1000 5 60 40 = false
    ∧ size_filter_rejects 5 999999 80 1000 4 60 40 = true := by
  refine ⟨?_, by decide, by decide⟩
  intro mf Mf ml Ml cf a d
  unfold size_filter_rejects
  by_cases h1 : cf < mf <;> by_cases h2 : a + d < ml <;>
    by_cases h3 : Mf < cf <;> by_cases h4 : Ml < a + d <;>
    simp [h1, h2, h3, h4]

/-- Claim C6: for every URL and parameter dictionary, permuting the
insertion order of the (distinct-keyed) parameters yields an identical
cache key: the key hashes the URL and the parameters serialized with
sorted keys. -/
theorem c6_cache_key_perm (url : String) (l₁ l₂ : List (String × String))
    (hperm : List.Perm l₁ l₂) (hkeys : (l₁.map Prod.fst).Nodup) :
    cache_key url l₁ = cache_key url l₂ := by
  have hsort : sortParams l₁ = sortParams l₂ := by
    apply sortedKeys_perm_eq
    · exact (List.perm_insertionSort _ l₁).trans
        (hperm.trans (List.perm_insertionSort _ l₂).symm)
    · exact List.sorted_insertionSort _ l₁
    · exact List.sorted_insertionSort _ l₂
    · exact ((List.perm_insertionSort _ l₁).map Prod.fst).nodup_iff.mpr hkeys
  have hempty : l₁.isEmpty = l₂.isEmpty := by
    have hl := hperm.length_eq
    cases l₁ <;> cases l₂ <;> simp_all
  unfold cache_key cacheKeyInput
  rw [hsort, hempty]

/-- Witness for claim C6: swapping two search parameters leaves the cache
key unchanged. -/
theorem c6_cache_key_perm_witness :
    cache_key "https://api.github.com/search/repositories" [("page", "1"), ("q", "stars")]
      = cache_key "https://api.github.com/search/repositories" [("q", "stars"), ("page", "1")] :=
  c6_cache_key_perm "https://api.github.com/search/repositories"
    [("page", "1"), ("q", "stars")] [("q", "stars"), ("page", "1")]
    (by decide) (by decide)

/-- Claim C7: for a start index within the buffer, append_csv_rows appends
exactly the rows from that index onward and returns the buffer length, so
already-flushed rows are never rewritten or duplicated. -/
theorem c7_append_suffix (file rows : List (List String)) (start : Nat)
    (h : start ≤ rows.length) :
    append_csv_rows file rows start = (file ++ rows.drop start, rows.length) := by
  unfold append_csv_rows
  by_cases hc : rows.length ≤ start
  · rw [if_pos hc]
    have heq : start = rows.length := le_antisymm h hc
    rw [heq, List.drop_length, List.append_nil]
  · rw [if_neg hc]

/-- Witness for claim C7, flushing from index 1 of a two-row buffer. -/
theorem c7_append_suffix_witness :
    append_csv_rows [["h"]] [["r0"], ["r1"]] 1
      = ([["h"]] ++ List.drop 1 [["r0"], ["r1"]], List.length [["r0"], ["r1"]]) :=
  c7_append_suffix [["h"]] [["r0"], ["r1"]] 1 (by decide)

/-- Claim C8: ensure_csv_header leaves an existing file unchanged, writes
exactly one header row into a missing file, and is idempotent, so the
header appears exactly once however many times the file is touched. -/
theorem c8_header_idempotent :
    (∀ c : List (List String), ensure_csv_header (some c) FIELDNAMES = c)
    ∧ ensure_csv_header none FIELDNAMES = [FIELDNAMES]
    ∧ (∀ f, ensure_csv_header (some (ensure_csv_header f FIELDNAMES)) FIELDNAMES
          = ensure_csv_header f FIELDNAMES)
    ∧ List.count FIELDNAMES (ensure_csv_header none FIELDNAMES) = 1 := by
  refine ⟨fun c => rfl, rfl, fun f => ?_, by decide⟩
  cases f <;> rfl

/-- Claim C9: the empty change set is classified doc-only, so a PR whose
file listing is empty is rejected by the doc-only check of process_repo. -/
theorem c9_docs_only_empty : looks_like_docs_only ([] : List String) = true := by decide

/-- Claim C10: after any sequence of orchestrator events, the two counters
of collect_and_stream equal each other and the row-buffer length (they
count collected rows), and last_saved never exceeds the buffer length. -/
theorem c10_counters_invariant (ae : Nat) (file0 : List (List String))
    (evs : List HarvestEvent) :
    (harvestRun ae file0 evs).issues_checked = (harvestRun ae file0 evs).prs_checked
    ∧ (harvestRun ae file0 evs).issues_checked = (harvestRun ae file0 evs).rows.length
    ∧ (harvestRun ae file0 evs).last_saved ≤ (harvestRun ae file0 evs).rows.length := by
  have h := harvestFold_inv ae evs (initHarvestState file0) rfl rfl (Nat.le_refl 0)
  unfold harvestRun
  exact ⟨h.1.trans h.2.1.symm, h.1, h.2.2⟩

end IssueFinder
